import Mathlib

/-!
Verification development for the epubkit core: a shallow embedding of the
package-document parser (`src/lib/opf.ts`, exposed through `rendition.ts`),
the resource resolver (`src/lib/resource.ts`) and the parts of the data
model the claims exercise.  JavaScript strings are modelled by `String`,
DOM attribute access by association lists, WHATWG URLs by a structured
`Url` record, and the single-threaded event loop by explicit state
passing: the per-path resource cache and the list of performed
resolutions live in a `PkgState` record threaded through every operation.
-/

/-! ## String helpers (models of the JavaScript string operations used) -/

def splitOnCharAux (c : Char) : List Char → List Char → List (List Char)
  | [], acc => [acc.reverse]
  | x :: xs, acc =>
    if x = c then acc.reverse :: splitOnCharAux c xs []
    else splitOnCharAux c xs (x :: acc)

/-- Split a character list at every occurrence of `c` (like `"s".split(c)`). -/
def splitOnChar (c : Char) (l : List Char) : List (List Char) :=
  splitOnCharAux c l []

def strOf (l : List Char) : String := String.mk l

/-- Model of `String.prototype.trim`. -/
def jsTrim (s : String) : String :=
  strOf (((s.data.dropWhile Char.isWhitespace).reverse.dropWhile Char.isWhitespace).reverse)

/-- Model of `String.prototype.toLowerCase` (ASCII, which is all the source compares). -/
def jsLower (s : String) : String :=
  strOf (s.data.map Char.toLower)

/-- Model of `String.prototype.startsWith`. -/
def jsStartsWith (s pre : String) : Bool :=
  pre.data.isPrefixOf s.data

def replaceFirstAux (target repl : List Char) : List Char → List Char
  | [] => []
  | x :: xs =>
    if target.isPrefixOf (x :: xs) then repl ++ (x :: xs).drop target.length
    else x :: replaceFirstAux target repl xs

/-- Model of `String.prototype.replace` with a string pattern: replaces only the
first occurrence of `target` (JavaScript semantics).  An empty pattern inserts
the replacement at the start, as in JavaScript. -/
def replaceFirst (s target repl : String) : String :=
  if target.data = [] then repl ++ s
  else strOf (replaceFirstAux target.data repl.data s.data)

/-- JavaScript truthiness of a nullable string: `null` and `""` are falsy. -/
def truthy : Option String → Bool
  | none => false
  | some s => s ≠ ""

/-! ## WHATWG URL model

The source relies on `new URL(input, base)`, `.origin`, `.pathname` and
`.href`.  We model an already-parsed URL as scheme, host, absolute path
segments, optional query and optional fragment, and implement relative
resolution (including dot-segment removal) as the WHATWG algorithm behaves
on the inputs the library produces. -/

structure Url where
  scheme : String
  host : String
  path : List String
  query : Option String
  fragment : Option String
deriving DecidableEq, Repr

def Url.origin (u : Url) : String := u.scheme ++ "://" ++ u.host

def urlJoin : List String → String
  | [] => ""
  | [s] => s
  | s :: rest => s ++ "/" ++ urlJoin rest

def Url.pathname (u : Url) : String := "/" ++ urlJoin u.path

def optSuffix (pre : String) : Option String → String
  | none => ""
  | some s => pre ++ s

def Url.href (u : Url) : String :=
  u.origin ++ u.pathname ++ optSuffix "?" u.query ++ optSuffix "#" u.fragment

/-- Split off the part after the first occurrence of `c` (if any). -/
def splitFirst (c : Char) (s : String) : String × Option String :=
  match splitOnChar c s.data with
  | [] => (s, none)
  | [a] => (strOf a, none)
  | a :: rest => (strOf a, some (strOf (String.intercalate c.toString (rest.map strOf)).data))

/-- WHATWG `remove_dot_segments` on path segments.  A trailing `.` or `..`
leaves a trailing empty segment (a directory path). -/
def removeDotsAux : List String → List String → List String
  | [], acc => acc.reverse
  | ["."], acc => ("" :: acc).reverse
  | [".."], acc => ("" :: acc.tail).reverse
  | "." :: rest, acc => removeDotsAux rest acc
  | ".." :: rest, acc => removeDotsAux rest acc.tail
  | seg :: rest, acc => removeDotsAux rest (seg :: acc)

def removeDotSegments (segs : List String) : List String :=
  removeDotsAux segs []

/-- Is `pat` a contiguous sublist of `l`? -/
def containsSub (pat : List Char) : List Char → Bool
  | [] => pat.isPrefixOf []
  | x :: xs => pat.isPrefixOf (x :: xs) || containsSub pat xs

/-- Does the input string carry a scheme, i.e. contain `://`? (The library only
ever resolves http-style absolute or relative references.) -/
def hasScheme (s : String) : Bool :=
  containsSub "://".data s.data

def parseAbsolute (beforeQ : String) (q frag : Option String) : Url :=
  match (splitOnChar '/' beforeQ.data).map strOf with
  | scheme :: _ :: host :: segs =>
      { scheme := strOf scheme.data.dropLast, host := host,
        path := removeDotSegments (if segs = [] then [""] else segs),
        query := q, fragment := frag }
  | _ => { scheme := "", host := "", path := [""], query := q, fragment := frag }

/-- Model of `new URL(input, base)` for the reference shapes the library
produces: absolute `scheme://host/path`, root-relative `/path`, fragment-only
`#f`, and relative `path` (resolved against the base directory with
dot-segment removal).  Query and fragment are split off first, as in the
WHATWG parser. -/
def resolveUrl (input : String) (base : Url) : Url :=
  let (beforeHash, frag) := splitFirst '#' input
  let (beforeQ, q) := splitFirst '?' beforeHash
  if hasScheme beforeQ then parseAbsolute beforeQ q frag
  else if jsStartsWith beforeQ "/" then
    { scheme := base.scheme, host := base.host,
      path := removeDotSegments ((splitOnChar '/' (beforeQ.drop 1).data).map strOf),
      query := q, fragment := frag }
  else if beforeQ = "" then
    if beforeHash = "" ∨ ¬ containsSub "?".data beforeHash.data then
      { scheme := base.scheme, host := base.host, path := base.path,
        query := base.query, fragment := frag }
    else
      { scheme := base.scheme, host := base.host, path := base.path,
        query := q, fragment := frag }
  else
    { scheme := base.scheme, host := base.host,
      path := removeDotSegments (base.path.dropLast ++ (splitOnChar '/' beforeQ.data |>.map strOf)),
      query := q, fragment := frag }

/-! ## DOM element model

Package XML is modelled two-level: a root (`package`) with section elements
(`metadata`, `manifest`, `spine`), each holding leaf elements (`dc:*`,
`meta`, `item`, `itemref`).  Structured-markup content documents are a flat
list of elements; only tags and attributes matter to the scanner. -/

structure XElem where
  tag : String
  attrs : List (String × String)
  text : String := ""
deriving DecidableEq, Repr

structure XSection where
  tag : String
  attrs : List (String × String)
  children : List XElem
deriving DecidableEq, Repr

structure PkgXml where
  rootTag : String
  rootAttrs : List (String × String)
  sections : List XSection
deriving DecidableEq, Repr

/-- `getAttribute`: first attribute with the given name, `null` if absent. -/
def getAttrL (attrs : List (String × String)) (name : String) : Option String :=
  (attrs.find? (fun p => p.1 == name)).map (fun p => p.2)

def XElem.getAttr (e : XElem) (name : String) : Option String := getAttrL e.attrs name

def setAttrL : List (String × String) → String → String → List (String × String)
  | [], name, v => [(name, v)]
  | (n, w) :: rest, name, v =>
    if n == name then (name, v) :: rest else (n, w) :: setAttrL rest name v

/-- `setAttribute`: overwrite the existing attribute or append a new one. -/
def XElem.setAttr (e : XElem) (name v : String) : XElem :=
  { e with attrs := setAttrL e.attrs name v }

/-! ## Blob model and object URLs -/

inductive BlobPart
  | str (s : String)
  | bytes (b : List Nat)
deriving DecidableEq, Repr

/-- A `Blob` as built by `new Blob([part], mimetype)`. -/
structure Blob where
  part : BlobPart
  mime : String
deriving DecidableEq, Repr

/-- Model of `URL.createObjectURL` for the resource with internal id `rid`:
object URLs are unique per blob, hence per created resource instance; the
memoized `CommonResource.getURL` always hands out the same one for one
instance. -/
def objectUrl (rid : Nat) : String := "blob:epubkit-" ++ Nat.repr rid

/-! ## Manifest data model -/

/-- `PackageItem` (opf.ts): the id lives in the `items_by_id` keys; the
resolved pathname is what the `getContentBlob`/`getContentBuffer` closures
capture. -/
structure Item where
  href : String
  mime : String
  properties : List String
  fallback : Option String
  overlay : Option String
  pathname : String
deriving DecidableEq, Repr

structure Manifest where
  items : List Item
  byId : List (String × Item)
deriving DecidableEq, Repr

/-- JavaScript object indexing with string keys: the last assignment wins. -/
def byIdLookup (l : List (String × Item)) (k : String) : Option Item :=
  (l.reverse.find? (fun p => p.1 == k)).map (fun p => p.2)

/-! ## Errors -/

inductive Err
  | invalidPackageDoc
  | missingUid
  | missingPrimaryId
  | primaryNotDcIdentifier
  | missingVersion
  | missingMetadata
  | missingManifest
  | missingSpine
  | missingDcIdentifier
  | missingDcTitle
  | missingDcLanguage
  | missingItemHref
  | missingItemMime
  | missingItemId
  | originMismatch
  | invalidToc
  | missingItemrefs
  | missingIdref
  | invalidIdref (idref : String)
  | noContentDoc (idref : String)
  | missingLinear
  | notFound (url : String)
deriving DecidableEq, Repr

/-! ## Resource resolution state and `PackageDocument.getResource`

The JavaScript runtime is single-threaded: `getResource` runs its body
synchronously and stores the *pending* promise of
`createResourceFromItem` in `#cached_resources[resolved_url.pathname]`
before any byte read or parse happens.  We model the cache as a map from
pathname to a resource id allocated at that moment, and record each
started underlying resolution (one byte read and one parse) in
`resolutions`; any caller observing the cache sees the entry as soon as
the synchronous section has run, which is exactly the single-flight
behaviour of the promise cache. -/

structure PkgState where
  packageUrl : Url
  baseUrl : Url
  manifest : List Item
  cache : List (String × Nat)
  nextId : Nat
  resolutions : List String
deriving DecidableEq, Repr

/-- `PackageDocument.getResource(url, base_url = this.base_url)` (opf.ts,
lines 361-380 of the concatenated source).  Returns the resource id and
the updated state. -/
def getResource (url : String) (base? : Option Url) (s : PkgState) :
    Except Err (Nat × PkgState) :=
  let base := base?.getD s.baseUrl
  let resolved := resolveUrl url base
  if resolved.origin ≠ s.packageUrl.origin then .error .originMismatch
  else
    match s.cache.find? (fun e => e.1 == resolved.pathname) with
    | some e => .ok (e.2, s)
    | none =>
      match s.manifest.find? (fun it => resolved.href == (resolveUrl it.href s.baseUrl).href) with
      | none => .error (.notFound url)
      | some _ =>
        .ok (s.nextId,
          { s with
            cache := (resolved.pathname, s.nextId) :: s.cache,
            nextId := s.nextId + 1,
            resolutions := s.resolutions ++ [resolved.pathname] })

/-! ## Resource variants (resource.ts)

Resource instances are identified by the `Nat` id that `getResource`
allocated for them; `objectUrl` is the memoized handle `getURL` returns
for that instance.  The variant payloads are modelled where a claim needs
them. -/

/-- `CSSResource`: rewritten text plus ordered dependency ids. -/
structure CssRes where
  content : String
  resources : List Nat
deriving DecidableEq, Repr

/-- `CSSResource.getBlob`: a fresh blob over the current rewritten text. -/
def CssRes.getBlob (r : CssRes) : Blob := { part := .str r.content, mime := "text/css" }

/-- `HTMLResource`: mutated document tree, ordered dependency ids, and the
lazily-cached blob field (`blob?` in the source). -/
structure HtmlRes where
  doc : List XElem
  resources : List Nat
  blob : Option Blob
deriving DecidableEq, Repr

def serializeElem (e : XElem) : String :=
  "<" ++ e.tag ++ (e.attrs.foldl (fun acc p => acc ++ " " ++ p.1 ++ "=\x22" ++ p.2 ++ "\x22") "") ++ "/>"

/-- `XMLSerializer().serializeToString(doc)`: a deterministic rendering of the
current tree (tags and attributes, which is all the model tracks). -/
def serializeDoc (doc : List XElem) : String :=
  (doc.map serializeElem).foldl (fun a b => a ++ b) ""

def HtmlRes.getSerialized (r : HtmlRes) : String := serializeDoc r.doc

/-- `HTMLResource.getBlob` (resource.ts lines 58-65): `if (this.blob) return
this.blob;` — the serialized blob is computed once and cached on the
instance; later calls return the cached blob unchanged. -/
def HtmlRes.getBlob (r : HtmlRes) : Blob × HtmlRes :=
  match r.blob with
  | some b => (b, r)
  | none =>
    ({ part := .str (serializeDoc r.doc), mime := "application/xhtml+xml" },
     { r with blob := some { part := .str (serializeDoc r.doc), mime := "application/xhtml+xml" } })

/-- `BinaryResource`: the constructor wraps the original bytes in a blob. -/
structure BinRes where
  blob : Blob
deriving DecidableEq, Repr

def binResOfContent (content : List Nat) : BinRes :=
  { blob := { part := .bytes content, mime := "" } }

def BinRes.getBlob (r : BinRes) : Blob := r.blob

/-! ## CSS reference extraction

Models of the two extraction regexes of `CSSResource.create`:
`@import\s+(['"]?)(.*?)\1\s*;` and `url\(\s*(['"]?)(.*?)\1\s*\)`, both
global, with JavaScript semantics: leftmost matches, scanning resumed
after each full match, the lazy group never crossing a line terminator
(`.` does not match newlines), `\s*` absorbing whitespace before the
closing delimiter. -/

/-- Match `\s*` then the closing delimiter `close`, returning the remainder. -/
def afterWsClose (close : Char) : List Char → Option (List Char)
  | [] => none
  | c :: cs =>
    if c = close then some cs
    else if c.isWhitespace then afterWsClose close cs
    else none

/-- Lazy unquoted capture: the shortest prefix after which `\s*` + `close`
matches; fails on a line terminator or end of input. -/
def lazyUnquoted (close : Char) : List Char → List Char → Option (List Char × List Char)
  | acc, l =>
    match afterWsClose close l with
    | some rest => some (acc.reverse, rest)
    | none =>
      match l with
      | [] => none
      | c :: cs =>
        if c = '\n' ∨ c = '\r' then none else lazyUnquoted close (c :: acc) cs

/-- Lazy quoted capture: the shortest prefix after which the quote, `\s*` and
`close` all match. -/
def lazyQuoted (close qc : Char) : List Char → List Char → Option (List Char × List Char)
  | acc, l =>
    match l with
    | [] => none
    | c :: cs =>
      if c = qc then
        match afterWsClose close cs with
        | some rest => some (acc.reverse, rest)
        | none =>
          if c = '\n' ∨ c = '\r' then none else lazyQuoted close qc (c :: acc) cs
      else if c = '\n' ∨ c = '\r' then none else lazyQuoted close qc (c :: acc) cs

/-- Shared body matcher: optional leading whitespace (`\s*` for `url(`, already
consumed `\s+` for `@import`), optional quote, lazy capture, delimiter. -/
def lazyBody (close : Char) (l : List Char) : Option (List Char × List Char) :=
  let rest := l.dropWhile Char.isWhitespace
  match rest with
  | [] => none
  | c :: cs =>
    if c = '\'' ∨ c = '"' then
      match lazyQuoted close c [] cs with
      | some r => some r
      | none => lazyUnquoted close [] rest
    else lazyUnquoted close [] rest

/-- Scan for `url\(\s*(['"]?)(.*?)\1\s*\)` matches; fuel bounds the scan (one
unit per character is always enough). -/
def scanUrlRefs : Nat → List Char → List String
  | 0, _ => []
  | _ + 1, [] => []
  | fuel + 1, c :: cs =>
    if "url(".data.isPrefixOf (c :: cs) then
      match lazyBody ')' ((c :: cs).drop 4) with
      | some (content, rest) => strOf content :: scanUrlRefs fuel rest
      | none => scanUrlRefs fuel cs
    else scanUrlRefs fuel cs

def findUrlRefs (s : String) : List String :=
  scanUrlRefs s.data.length s.data

/-- Match the `\s+` + body of an `@import` statement: at least one whitespace
character, then quote/lazy capture up to `\s*;`. -/
def importBody (l : List Char) : Option (List Char × List Char) :=
  match l with
  | [] => none
  | c :: cs => if c.isWhitespace then lazyBody ';' cs else none

/-- Scan for `@import\s+(['"]?)(.*?)\1\s*;` matches; the captured target is
trimmed at collection time (`imports.push(match[2].trim())`). -/
def scanImports : Nat → List Char → List String
  | 0, _ => []
  | _ + 1, [] => []
  | fuel + 1, c :: cs =>
    if "@import".data.isPrefixOf (c :: cs) then
      match importBody ((c :: cs).drop 7) with
      | some (content, rest) => jsTrim (strOf content) :: scanImports fuel rest
      | none => scanImports fuel cs
    else scanImports fuel cs

def findImports (s : String) : List String :=
  scanImports s.data.length s.data

/-! ## `CSSResource.create` (resource.ts lines 176-227) -/

/-- Except-propagating left fold used to model the sequential `for ... await`
loops. -/
def foldE {α β : Type} (f : β → α → Except Err β) : β → List α → Except Err β
  | b, [] => .ok b
  | b, a :: rest =>
    match f b a with
    | .error e => .error e
    | .ok b' => foldE f b' rest

/-- One iteration of the `@import` rewriting loop: skip cross-origin targets
(checked against the stylesheet base), otherwise resolve through the shared
cache *with the stylesheet base `base_url`* and replace the first remaining
literal occurrence with the resolved handle. -/
def cssImportStep (base : Url) (acc : String × List Nat × PkgState) (cand : String) :
    Except Err (String × List Nat × PkgState) :=
  let (content, rs, s) := acc
  let url := resolveUrl cand base
  if url.origin ≠ base.origin then .ok (content, rs, s)
  else
    match getResource cand (some base) s with
    | .error e => .error e
    | .ok (rid, s') => .ok (replaceFirst content cand (objectUrl rid), rs ++ [rid], s')

/-- One iteration of the `url(...)` rewriting loop: the cross-origin check
uses the stylesheet base, but `opf.getResource(candidate_url)` is invoked
*without* a base argument, so the target resolves against the package base. -/
def cssUrlStep (base : Url) (acc : String × List Nat × PkgState) (cand : String) :
    Except Err (String × List Nat × PkgState) :=
  let (content, rs, s) := acc
  let url := resolveUrl cand base
  if url.origin ≠ base.origin then .ok (content, rs, s)
  else
    match getResource cand none s with
    | .error e => .error e
    | .ok (rid, s') => .ok (replaceFirst content cand (objectUrl rid), rs ++ [rid], s')

/-- `CSSResource.create`: collect `@import` targets from the decoded text,
drop those written in `url(...)` form, rewrite them, then collect and rewrite
the `url(...)` references found in the already-rewritten text. -/
def cssCreate (content : String) (base : Url) (s : PkgState) :
    Except Err (CssRes × PkgState) :=
  let imports := (findImports content).filter (fun i => ¬ jsStartsWith i "url(")
  match foldE (cssImportStep base) (content, [], s) imports with
  | .error e => .error e
  | .ok (c1, rs1, s1) =>
    match foldE (cssUrlStep base) (c1, rs1, s1) (findUrlRefs c1) with
    | .error e => .error e
    | .ok (c2, rs2, s2) => .ok ({ content := c2, resources := rs2 }, s2)

/-! ## `HTMLResource.create` (resource.ts lines 67-162)

The declarative tag/attribute matcher table, transcribed row for row, and
the scanning loop: for each matcher, elements of that tag in document
order; candidates lacking both the relevant attribute and `xlink:href`
are skipped; `rel`/`name`/`property`/`itemprop` filters use trimmed,
lower-cased values against closed sets.  A cross-origin attribute value
hits `continue`, leaving the element untouched (and skipping the
`xlink:href` block of the same candidate). -/

structure Matcher where
  tag : String
  attrName : String
  rels : Option (List String) := none
  names : Option (List String) := none
  props : Option (List String) := none
  itemprops : Option (List String) := none
deriving DecidableEq, Repr

def linkRels : List String :=
  ["stylesheet", "icon", "shortcut icon", "mask-icon", "apple-touch-icon",
   "apple-touch-icon-precomposed", "apple-touch-startup-image", "manifest",
   "prefetch", "preload"]

def metaNames : List String :=
  ["msapplication-tileimage", "msapplication-square70x70logo",
   "msapplication-square150x150logo", "msapplication-wide310x150logo",
   "msapplication-square310x310logo", "msapplication-config", "twitter:image"]

def metaProps : List String :=
  ["og:image", "og:image:url", "og:image:secure_url", "og:audio",
   "og:audio:secure_url", "og:video", "og:video:secure_url", "vk:image"]

def metaItemprops : List String :=
  ["image", "logo", "screenshot", "thumbnailurl", "contenturl", "downloadurl",
   "duringmedia", "embedurl", "installurl", "layoutimage"]

def tagAttributeMatchers : List Matcher :=
  [ { tag := "audio", attrName := "src" },
    { tag := "embed", attrName := "src" },
    { tag := "img", attrName := "src" },
    { tag := "input", attrName := "src" },
    { tag := "script", attrName := "src" },
    { tag := "source", attrName := "src" },
    { tag := "track", attrName := "src" },
    { tag := "video", attrName := "src" },
    { tag := "script", attrName := "href" },
    { tag := "image", attrName := "href" },
    { tag := "use", attrName := "href" },
    { tag := "link", attrName := "href", rels := some linkRels },
    { tag := "img", attrName := "srcset" },
    { tag := "source", attrName := "srcset" },
    { tag := "video", attrName := "poster" },
    { tag := "object", attrName := "data" },
    { tag := "meta", attrName := "content", names := some metaNames,
      props := some metaProps, itemprops := some metaItemprops },
    { tag := "link", attrName := "imagesrcset", rels := some linkRels } ]

/-- One `rel`/`name`/`property`/`itemprop` filter: absent or empty (after
trim/lower-case) attribute values fail, as does a value outside the closed
set; a matcher without the filter passes. -/
def passFilter (vals? : Option (List String)) (e : XElem) (attrName : String) : Bool :=
  match vals? with
  | none => true
  | some vals =>
    match e.getAttr attrName with
    | none => false
    | some v => jsLower (jsTrim v) ≠ "" && vals.contains (jsLower (jsTrim v))

/-- The `xlink:href` block of the candidate loop body. -/
def xlinkPart (xl : Option String) (base : Url) (e : XElem) (rs : List Nat)
    (s : PkgState) : Except Err (XElem × List Nat × PkgState) :=
  if truthy xl then
    let a := xl.getD ""
    if (resolveUrl a base).origin ≠ base.origin then .ok (e, rs, s)
    else
      match getResource a (some base) s with
      | .error err => .error err
      | .ok (rid, s') => .ok (e.setAttr "xlink:href" (objectUrl rid), rs ++ [rid], s')
  else .ok (e, rs, s)

/-- The candidate loop body of `HTMLResource.create`: presence check,
filters, the attribute block (whose cross-origin `continue` also skips the
`xlink:href` block), then the `xlink:href` block. -/
def processCandidate (m : Matcher) (base : Url) (e : XElem) (s : PkgState) :
    Except Err (XElem × List Nat × PkgState) :=
  let attr := e.getAttr m.attrName
  let xl := e.getAttr "xlink:href"
  if ¬ (truthy attr || truthy xl) then .ok (e, [], s)
  else if ¬ passFilter m.rels e "rel" then .ok (e, [], s)
  else if ¬ passFilter m.names e "name" then .ok (e, [], s)
  else if ¬ passFilter m.props e "property" then .ok (e, [], s)
  else if ¬ passFilter m.itemprops e "itemprop" then .ok (e, [], s)
  else if truthy attr then
    let a := attr.getD ""
    if (resolveUrl a base).origin ≠ base.origin then .ok (e, [], s)
    else
      match getResource a (some base) s with
      | .error err => .error err
      | .ok (rid, s') => xlinkPart xl base (e.setAttr m.attrName (objectUrl rid)) [rid] s'
  else xlinkPart xl base e [] s

/-- Process the document element at index `i` against matcher `m` (the
`getElementsByTagName` candidates are exactly the indices whose tag
matches), mutating the tree in place. -/
def matcherStep (m : Matcher) (base : Url) (acc : List XElem × List Nat × PkgState)
    (i : Nat) : Except Err (List XElem × List Nat × PkgState) :=
  let (doc, rs, s) := acc
  match doc.get? i with
  | none => .ok acc
  | some e =>
    if e.tag == m.tag then
      match processCandidate m base e s with
      | .error err => .error err
      | .ok (e', newRs, s') => .ok (doc.set i e', rs ++ newRs, s')
    else .ok acc

def matcherPass (base : Url) (acc : List XElem × List Nat × PkgState) (m : Matcher) :
    Except Err (List XElem × List Nat × PkgState) :=
  foldE (matcherStep m base) acc (List.range acc.1.length)

/-- `HTMLResource.create`: scan the parsed document with the matcher table in
table order, elements in document order, rewriting matched same-origin
references to resolved handles; the blob cache starts empty. -/
def htmlCreate (doc : List XElem) (base : Url) (s : PkgState) :
    Except Err (HtmlRes × PkgState) :=
  match foldE (matcherPass base) (doc, [], s) tagAttributeMatchers with
  | .error e => .error e
  | .ok (doc', rs, s') => .ok ({ doc := doc', resources := rs, blob := none }, s')

/-! ## Package metadata (`#processMetadata`, opf.ts)

Only the parts the claims exercise are modelled: the three mandatory
Dublin-Core presence checks (in source order) and the collected trimmed
texts.  The `TextRun` direction/language tagging, the optional Dublin-Core
sequences and the `dcterms:modified` timestamp are not touched by any
claim and are omitted. -/

structure MetadataM where
  identifiers : List String
  titles : List String
  languages : List String
deriving DecidableEq, Repr

def tagChildren (md : XSection) (tag : String) : List XElem :=
  md.children.filter (fun c => c.tag == tag)

def nonEmptyTexts (es : List XElem) : List String :=
  (es.map (fun e => jsTrim e.text)).filter (fun t => t ≠ "")

def processMetadata (md : XSection) : Except Err MetadataM :=
  if (tagChildren md "dc:identifier").length = 0 then .error .missingDcIdentifier
  else if (tagChildren md "dc:title").length = 0 then .error .missingDcTitle
  else if (tagChildren md "dc:language").length = 0 then .error .missingDcLanguage
  else .ok
    { identifiers := nonEmptyTexts (tagChildren md "dc:identifier"),
      titles := nonEmptyTexts (tagChildren md "dc:title"),
      languages := nonEmptyTexts (tagChildren md "dc:language") }

/-! ## Manifest processing (`#processManifest`, opf.ts lines 624-685) -/

def jsSplitChar (s : String) (c : Char) : List String :=
  (splitOnChar c s.data).map strOf

/-- `item.getAttribute('properties')?.split(' ') || []`: a missing attribute
gives `[]`; an empty attribute gives `[""]` (JavaScript `"".split(' ')`). -/
def propsOf (e : XElem) (attrName : String) : List String :=
  match e.getAttr attrName with
  | none => []
  | some s => jsSplitChar s ' '

structure ManifestOut where
  manifest : Manifest
  navItem : Option String
  coverItem : Option String
deriving DecidableEq, Repr

/-- The per-`item` loop body: mandatory `href`, `media-type`, `id` (falsy
values are failures, in that order), optional `fallback`/`media-overlay`,
then the strict same-origin check on the resolved href. -/
def manifestItemStep (baseUrl : Url) (pkgOrigin : String) (acc : ManifestOut)
    (c : XElem) : Except Err ManifestOut :=
  let href? := c.getAttr "href"
  if ¬ truthy href? then .error .missingItemHref
  else
    let href := href?.getD ""
    if ¬ truthy (c.getAttr "media-type") then .error .missingItemMime
    else
      let mime := (c.getAttr "media-type").getD ""
      let props := propsOf c "properties"
      let id? := c.getAttr "id"
      if ¬ truthy id? then .error .missingItemId
      else
        let id := id?.getD ""
        let resolved := resolveUrl href baseUrl
        if resolved.origin ≠ pkgOrigin then .error .originMismatch
        else
          let it : Item :=
            { href := href, mime := mime, properties := props,
              fallback := c.getAttr "fallback", overlay := c.getAttr "media-overlay",
              pathname := resolved.pathname }
          .ok
            { manifest :=
                { items := acc.manifest.items ++ [it],
                  byId := acc.manifest.byId ++ [(id, it)] },
              navItem := if props.contains "nav" then some id else acc.navItem,
              coverItem := if props.contains "cover-image" then some id else acc.coverItem }

def processManifest (baseUrl : Url) (pkgOrigin : String) (sec : XSection) :
    Except Err ManifestOut :=
  foldE (manifestItemStep baseUrl pkgOrigin)
    { manifest := { items := [], byId := [] }, navItem := none, coverItem := none }
    (sec.children.filter (fun c => c.tag == "item"))

/-! ## Fallback-chain walk and spine processing (`#processSpine`, opf.ts
lines 687-774)

The source walks the chain with an unguarded `while` loop; the model makes
one loop iteration explicit (`chainStep`) and bounds the walk with fuel
(`chainWalk`), `none` meaning the loop has not exited within the given
number of iterations. -/

def contentDocMimes : List String :=
  ["application/xhtml+xml", "application/svg+xml", "image/svg+xml",
   "application/svg", "image/svg", "application/xhtml", "text/html"]

inductive ChainStep
  | valid
  | invalid
  | next (it : Item)
deriving DecidableEq, Repr

/-- One iteration of the fallback `while` loop: a whitelisted MIME breaks out
successfully; a truthy `fallback` id moves to the looked-up item (an
unresolved id makes `current_item` undefined and ends the loop invalid); no
fallback ends the loop invalid. -/
def chainStep (m : Manifest) (it : Item) : ChainStep :=
  if contentDocMimes.contains it.mime then .valid
  else if truthy it.fallback then
    match byIdLookup m.byId (it.fallback.getD "") with
    | some nxt => .next nxt
    | none => .invalid
  else .invalid

def chainWalk : Nat → Manifest → Item → Option Bool
  | 0, _, _ => none
  | fuel + 1, m, it =>
    match chainStep m it with
    | .valid => some true
    | .invalid => some false
    | .next nxt => chainWalk fuel m nxt

structure ItemRefM where
  idref : String
  item : Item
  linear : Bool
  props : List String
deriving DecidableEq, Repr

structure SpineM where
  id : Option String
  pageProgression : String
  itemrefs : List ItemRefM
deriving DecidableEq, Repr

def pageProgressionDirs : List String := ["ltr", "rtl", "default"]

/-- Fold propagating both divergence (`none`) and errors. -/
def foldOE {α β : Type} (f : β → α → Option (Except Err β)) :
    β → List α → Option (Except Err β)
  | b, [] => some (.ok b)
  | b, a :: rest =>
    match f b a with
    | none => none
    | some (.error e) => some (.error e)
    | some (.ok b') => foldOE f b' rest

/-- The per-`itemref` loop body: mandatory idref, manifest lookup,
fallback-chain validation, `linear` false only for the literal `"no"`. -/
def itemrefStep (fuel : Nat) (m : Manifest) (acc : Bool × List ItemRefM)
    (c : XElem) : Option (Except Err (Bool × List ItemRefM)) :=
  let idref? := c.getAttr "idref"
  if ¬ truthy idref? then some (.error .missingIdref)
  else
    let idref := idref?.getD ""
    match byIdLookup m.byId idref with
    | none => some (.error (.invalidIdref idref))
    | some it =>
      match chainWalk fuel m it with
      | none => none
      | some false => some (.error (.noContentDoc idref))
      | some true =>
        let lin : Bool := !(c.getAttr "linear" == some "no")
        some (.ok (acc.1 || lin,
          acc.2 ++ [{ idref := idref, item := it, linear := lin, props := propsOf c "properties" }]))

/-- `#processSpine`: spine id, validated page-progression direction, the
`toc` legacy attribute (must resolve in the manifest when present), at
least one itemref, the per-itemref loop, and the final at-least-one-linear
check.  Returns the spine and the `toc_item` pointer. -/
def processSpine (fuel : Nat) (m : Manifest) (sp : XSection) :
    Option (Except Err (SpineM × Option String)) :=
  let id? := getAttrL sp.attrs "id"
  let spineId := if truthy id? then id? else none
  let pp? := getAttrL sp.attrs "page-progression-direction"
  let pp := match pp? with
    | some v => if truthy (some v) && pageProgressionDirs.contains v then v else "default"
    | none => "default"
  let toc? := getAttrL sp.attrs "toc"
  if truthy toc? ∧ byIdLookup m.byId (toc?.getD "") = none then some (.error .invalidToc)
  else
    let tocItem := if truthy toc? then toc? else none
    let refs := sp.children.filter (fun c => c.tag == "itemref")
    if refs.length = 0 then some (.error .missingItemrefs)
    else
      match foldOE (itemrefStep fuel m) (false, []) refs with
      | none => none
      | some (.error e) => some (.error e)
      | some (.ok (hasLin, irs)) =>
        if ¬ hasLin then some (.error .missingLinear)
        else some (.ok ({ id := spineId, pageProgression := pp, itemrefs := irs }, tocItem))

/-! ## Rendition hints (`#processRendition`, opf.ts lines 382-427) -/

def renditionLayoutValues : List String := ["pre-paginated", "reflowable"]

def renditionOrientationValues : List String := ["auto", "landscape", "portrait"]

def renditionSpreadValues : List String := ["none", "landscape", "portrait", "both", "auto"]

def renditionPageSpreadValues : List String := ["center", "left", "right"]

def renditionFlowValues : List String := ["auto", "paginated", "scrolled-continuous", "scrolled-doc"]

structure RenditionM where
  layout : String
  orientation : String
  spread : String
  pageSpread : String
  flow : String
  alignXCenter : Bool
deriving DecidableEq, Repr

/-- `metadata.querySelector('meta[property="..."]')`: first `meta` child with
that exact `property` value. -/
def findMeta (md : XSection) (prop : String) : Option XElem :=
  md.children.find? (fun c => c.tag == "meta" && c.getAttr "property" == some prop)

/-- The per-hint override: the first matching meta element's trimmed text
replaces the default only when non-empty and inside the closed value set. -/
def applyMeta (dflt : String) (vals : List String) (md : XSection) (prop : String) :
    String :=
  match findMeta md prop with
  | none => dflt
  | some e => if jsTrim e.text ≠ "" ∧ vals.contains (jsTrim e.text) then jsTrim e.text else dflt

/-- `#processRendition`: layout, orientation, spread and flow are read from
metadata meta elements; `page_spread` and `align_x_center` keep their
defaults (the source comments them as per-itemref and never overrides
them). -/
def processRendition (md : XSection) : RenditionM :=
  { layout := applyMeta "reflowable" renditionLayoutValues md "rendition:layout",
    orientation := applyMeta "auto" renditionOrientationValues md "rendition:orientation",
    spread := applyMeta "auto" renditionSpreadValues md "rendition:spread",
    pageSpread := "center",
    flow := applyMeta "auto" renditionFlowValues md "rendition:flow",
    alignXCenter := false }

/-! ## `PackageDocument` construction (opf.ts lines 292-355)

The constructor's validation steps are replayed in source order and the
phases actually entered are recorded in a trace, so ordering claims
(fail-fast before manifest/spine processing) are statable.  The result is
`none` when spine processing diverges in a fallback cycle. -/

inductive Step
  | rootCheck
  | uidCheck
  | primaryIdCheck
  | versionCheck
  | metadataProc
  | manifestProc
  | spineProc
  | renditionProc
deriving DecidableEq, Repr

def textDirs : List String := ["ltr", "rtl", "auto"]

structure ModelM where
  uid : String
  primaryIdentifier : String
  version : String
  dir : String
  docId : Option String
  prefixAttr : Option String
  lang : Option String
  metadata : MetadataM
  manifest : Manifest
  navItem : Option String
  coverItem : Option String
  spine : SpineM
  tocItem : Option String
  rendition : RenditionM
deriving DecidableEq, Repr

/-- `x || undefined`: falsy values become `undefined`. -/
def orUndef (o : Option String) : Option String :=
  if truthy o then o else none

/-- `querySelector('metadata > [id="uid"]')`: first child of a metadata
section carrying that id, in tree order. -/
def findPrimaryId (px : PkgXml) (uid : String) : Option XElem :=
  ((px.sections.filter (fun s => s.tag == "metadata")).flatMap (fun s => s.children)).find?
    (fun c => c.getAttr "id" == some uid)

def construct (fuel : Nat) (px : PkgXml) (packageUrl : Url) :
    Option (Except Err ModelM) × List Step :=
  let baseUrl := resolveUrl "." packageUrl
  if px.rootTag ≠ "package" then (some (.error .invalidPackageDoc), [.rootCheck])
  else
  let uid? := getAttrL px.rootAttrs "unique-identifier"
  if ¬ truthy uid? then (some (.error .missingUid), [.rootCheck, .uidCheck])
  else
  let uid := uid?.getD ""
  match findPrimaryId px uid with
  | none => (some (.error .missingPrimaryId), [.rootCheck, .uidCheck, .primaryIdCheck])
  | some pid =>
  if pid.tag ≠ "dc:identifier" then
    (some (.error .primaryNotDcIdentifier), [.rootCheck, .uidCheck, .primaryIdCheck])
  else
  let version? := getAttrL px.rootAttrs "version"
  if ¬ truthy version? then
    (some (.error .missingVersion), [.rootCheck, .uidCheck, .primaryIdCheck, .versionCheck])
  else
  let t4 : List Step := [.rootCheck, .uidCheck, .primaryIdCheck, .versionCheck]
  let dirAttr := getAttrL px.rootAttrs "dir"
  let dirVal := match dirAttr with
    | some d => if truthy (some d) && textDirs.contains d then d else "auto"
    | none => "auto"
  match px.sections.find? (fun s => s.tag == "metadata") with
  | none => (some (.error .missingMetadata), t4)
  | some mdSec =>
  match processMetadata mdSec with
  | .error e => (some (.error e), t4 ++ [.metadataProc])
  | .ok md =>
  match px.sections.find? (fun s => s.tag == "manifest") with
  | none => (some (.error .missingManifest), t4 ++ [.metadataProc])
  | some mfSec =>
  match processManifest baseUrl packageUrl.origin mfSec with
  | .error e => (some (.error e), t4 ++ [.metadataProc, .manifestProc])
  | .ok mo =>
  match px.sections.find? (fun s => s.tag == "spine") with
  | none => (some (.error .missingSpine), t4 ++ [.metadataProc, .manifestProc])
  | some spSec =>
  match processSpine fuel mo.manifest spSec with
  | none => (none, t4 ++ [.metadataProc, .manifestProc, .spineProc])
  | some (.error e) => (some (.error e), t4 ++ [.metadataProc, .manifestProc, .spineProc])
  | some (.ok (spn, tocIt)) =>
    (some (.ok
      { uid := uid, primaryIdentifier := pid.text, version := version?.getD "",
        dir := dirVal, docId := orUndef (getAttrL px.rootAttrs "id"),
        prefixAttr := orUndef (getAttrL px.rootAttrs "prefix"),
        lang := orUndef (getAttrL px.rootAttrs "xml:lang"),
        metadata := md, manifest := mo.manifest, navItem := mo.navItem,
        coverItem := mo.coverItem, spine := spn, tocItem := tocIt,
        rendition := processRendition mdSec }),
     t4 ++ [.metadataProc, .manifestProc, .spineProc, .renditionProc])

/-! ## Concrete fixtures for the claims -/

def fxPkgUrl : Url :=
  { scheme := "http", host := "pkg.local", path := ["OEBPS", "content.opf"],
    query := none, fragment := none }

def fxBase : Url := resolveUrl "." fxPkgUrl

def fxRootPkgUrl : Url :=
  { scheme := "http", host := "pkg.local", path := ["content.opf"],
    query := none, fragment := none }

def fxRootBase : Url := resolveUrl "." fxRootPkgUrl

def fxChapterItem : Item :=
  { href := "chapter1.xhtml", mime := "application/xhtml+xml", properties := [],
    fallback := none, overlay := none, pathname := "/OEBPS/chapter1.xhtml" }

def fxState0 : PkgState :=
  { packageUrl := fxPkgUrl, baseUrl := fxBase, manifest := [fxChapterItem],
    cache := [], nextId := 0, resolutions := [] }

def fxState1 : PkgState :=
  { fxState0 with cache := [("/OEBPS/chapter1.xhtml", 0)], nextId := 1, resolutions := ["/OEBPS/chapter1.xhtml"] }

def fxFontsItem : Item :=
  { href := "fonts.css", mime := "application/octet-stream", properties := [],
    fallback := none, overlay := none, pathname := "/fonts.css" }

def fxStyleFontsItem : Item :=
  { href := "styles/fonts.css", mime := "application/octet-stream", properties := [],
    fallback := none, overlay := none, pathname := "/styles/fonts.css" }

def fxCssState : PkgState :=
  { packageUrl := fxRootPkgUrl, baseUrl := fxRootBase, manifest := [fxFontsItem],
    cache := [], nextId := 0, resolutions := [] }

def fxCssContent : String := "@import url(fonts.css);\nbackground: url(fonts.css);"

def fxCssAfter : PkgState :=
  { fxCssState with cache := [("/fonts.css", 0)], nextId := 1, resolutions := ["/fonts.css"] }

def fxStyleBase : Url :=
  { scheme := "http", host := "pkg.local", path := ["styles", "main.css"],
    query := none, fragment := none }

def fxDualState : PkgState :=
  { packageUrl := fxRootPkgUrl, baseUrl := fxRootBase,
    manifest := [fxStyleFontsItem, fxFontsItem], cache := [], nextId := 0,
    resolutions := [] }

def fxDualContent : String := "@import \x22fonts.css\x22;\nbackground: url(fonts.css);"

def fxDualAfter : PkgState :=
  { fxDualState with cache := [("/fonts.css", 1), ("/styles/fonts.css", 0)], nextId := 2, resolutions := ["/styles/fonts.css", "/fonts.css"] }

def fxMetadataSec : XSection :=
  { tag := "metadata", attrs := [],
    children :=
      [ { tag := "dc:identifier", attrs := [("id", "pub-id")], text := "urn:isbn:123" },
        { tag := "dc:title", attrs := [], text := "Alice" },
        { tag := "dc:language", attrs := [], text := "en" } ] }

def fxManifestSec : XSection :=
  { tag := "manifest", attrs := [],
    children :=
      [ { tag := "item",
          attrs := [("id", "c1"), ("href", "chapter1.xhtml"), ("media-type", "application/xhtml+xml")] },
        { tag := "item",
          attrs := [("id", "bin1"), ("href", "data.bin"), ("media-type", "application/octet-stream")] } ] }

def fxSpineSec : XSection :=
  { tag := "spine", attrs := [],
    children := [ { tag := "itemref", attrs := [("idref", "c1")] } ] }

def fxPkgXml : PkgXml :=
  { rootTag := "package",
    rootAttrs := [("unique-identifier", "pub-id"), ("version", "3.0")],
    sections := [fxMetadataSec, fxManifestSec, fxSpineSec] }

def fxBinItem : Item :=
  { href := "data.bin", mime := "application/octet-stream", properties := [],
    fallback := none, overlay := none, pathname := "/OEBPS/data.bin" }

def fxValidManifest : Manifest :=
  { items := [fxChapterItem, fxBinItem], byId := [("c1", fxChapterItem), ("bin1", fxBinItem)] }

def fxSpineAllNo : XSection :=
  { tag := "spine", attrs := [],
    children := [ { tag := "itemref", attrs := [("idref", "c1"), ("linear", "no")] } ] }

def fxPkgXmlNoLinear : PkgXml :=
  { fxPkgXml with sections := [fxMetadataSec, fxManifestSec, fxSpineAllNo] }

def fxPkgXmlNoUid : PkgXml :=
  { fxPkgXml with rootAttrs := [("version", "3.0")] }

def fxSpineBin : XSection :=
  { tag := "spine", attrs := [],
    children := [ { tag := "itemref", attrs := [("idref", "bin1")] } ] }

def fxCycA : Item :=
  { href := "a.bin", mime := "application/octet-stream", properties := [],
    fallback := some "b", overlay := none, pathname := "/OEBPS/a.bin" }

def fxCycB : Item :=
  { href := "b.bin", mime := "application/octet-stream", properties := [],
    fallback := some "a", overlay := none, pathname := "/OEBPS/b.bin" }

def fxCycManifest : Manifest :=
  { items := [fxCycA, fxCycB], byId := [("a", fxCycA), ("b", fxCycB)] }

def fxManifestCycSec : XSection :=
  { tag := "manifest", attrs := [],
    children :=
      [ { tag := "item",
          attrs := [("id", "a"), ("href", "a.bin"), ("media-type", "application/octet-stream"), ("fallback", "b")] },
        { tag := "item",
          attrs := [("id", "b"), ("href", "b.bin"), ("media-type", "application/octet-stream"), ("fallback", "a")] } ] }

def fxSpineCycSec : XSection :=
  { tag := "spine", attrs := [],
    children := [ { tag := "itemref", attrs := [("idref", "a")] } ] }

def fxPkgXmlCyc : PkgXml :=
  { fxPkgXml with sections := [fxMetadataSec, fxManifestCycSec, fxSpineCycSec] }

def fxManifestXSec : XSection :=
  { tag := "manifest", attrs := [],
    children :=
      [ { tag := "item",
          attrs := [("id", "x1"), ("href", "http://other.local/x.png"), ("media-type", "image/png")] } ] }

def fxPageSpreadMeta : XElem :=
  { tag := "meta", attrs := [("property", "rendition:page-spread")], text := "left" }

def fxLayoutMeta : XElem :=
  { tag := "meta", attrs := [("property", "rendition:layout")], text := " pre-paginated " }

def fxOrientationMeta : XElem :=
  { tag := "meta", attrs := [("property", "rendition:orientation")], text := "sideways" }

def fxMetadataR : XSection :=
  { tag := "metadata", attrs := [],
    children :=
      [ { tag := "dc:identifier", attrs := [("id", "pub-id")], text := "x" },
        { tag := "dc:title", attrs := [], text := "T" },
        { tag := "dc:language", attrs := [], text := "en" },
        fxLayoutMeta,
        fxOrientationMeta,
        fxPageSpreadMeta ] }

def fxDocA : List XElem := [ { tag := "p", attrs := [("class", "a")] } ]

def fxDocB : List XElem := [ { tag := "p", attrs := [("class", "b")] } ]

def fxHtml0 : HtmlRes := { doc := fxDocA, resources := [], blob := none }

def fxHtml1 : HtmlRes := (HtmlRes.getBlob fxHtml0).2

def fxHtml2 : HtmlRes := { fxHtml1 with doc := fxDocB }

/-! ## Claims -/

/-- C2: for a stylesheet whose text contains `@import url(fonts.css);` and,
separately, `background: url(fonts.css);`, both referring to the same
same-origin path, `CSSResource.create` resolves that path exactly once
(the second lookup hits the shared cache: one entry in `resolutions`) and
both literal occurrences of the reference string are replaced by the same
resolved handle (the object URL of the single resolved resource, which is
pushed twice on the dependency list). -/
theorem cssCreate_same_ref_single_resolution :
    cssCreate fxCssContent fxRootBase fxCssState =
      .ok ({ content := "@import url(" ++ objectUrl 0 ++ ");\nbackground: url(" ++ objectUrl 0 ++ ");",
             resources := [0, 0] }, fxCssAfter)
    ∧ fxCssAfter.resolutions = ["/fonts.css"] := by
  exact ⟨by rfl, by rfl⟩

/-- C10: in `CSSResource.create` the two passes resolve against different
bases: the plain `@import` pass calls `getResource` with the stylesheet's
own base, while the `url(...)` pass calls `getResource` without a base, so
its target resolves against the package base — even though the
cross-origin pre-check of both passes uses the stylesheet's base.  With
the stylesheet based at `/styles/` and the package at `/`, the same
relative reference `fonts.css` resolves to `/styles/fonts.css` in the
pass for plain imports but `/fonts.css` in the url pass, producing two
distinct resources with distinct handles. -/
theorem cssCreate_url_pass_uses_package_base :
    (resolveUrl "fonts.css" fxStyleBase).pathname = "/styles/fonts.css"
    ∧ (resolveUrl "fonts.css" fxDualState.baseUrl).pathname = "/fonts.css"
    ∧ (resolveUrl "fonts.css" fxStyleBase).origin = fxStyleBase.origin
    ∧ cssCreate fxDualContent fxStyleBase fxDualState =
        .ok ({ content := "@import \x22" ++ objectUrl 0 ++ "\x22;\nbackground: url(" ++ objectUrl 1 ++ ");",
               resources := [0, 1] }, fxDualAfter)
    ∧ fxDualAfter.resolutions = ["/styles/fonts.css", "/fonts.css"]
    ∧ objectUrl 0 ≠ objectUrl 1 := by
  refine ⟨by decide, by decide, by decide, by rfl, by decide, by decide⟩

/-- C5 counterexample: `HTMLResource.getBlob` caches its blob on first call,
so a mutation of the document tree between two `getBlob()` calls is *not*
reflected in the second call's result: the second call returns the first
call's blob, which differs from the serialization of the mutated tree. -/
theorem htmlRes_getBlob_stale :
    (HtmlRes.getBlob fxHtml2).1 = (HtmlRes.getBlob fxHtml0).1
    ∧ (HtmlRes.getBlob fxHtml2).1 ≠ { part := .str (serializeDoc fxDocB), mime := "application/xhtml+xml" }
    ∧ fxHtml2.doc = fxDocB := by
  exact ⟨by decide, by decide, by decide⟩

/-- C7 counterexample: a metadata `meta` element with property
`rendition:page-spread` and value `left` — inside the page-spread closed
enumeration — does not override the page-spread hint: `#processRendition`
never reads any page-spread meta and the hint stays at its default
`center`. -/
theorem rendition_page_spread_ignored :
    findMeta fxMetadataR "rendition:page-spread" = some fxPageSpreadMeta
    ∧ jsTrim fxPageSpreadMeta.text = "left"
    ∧ renditionPageSpreadValues.contains "left" = true
    ∧ (processRendition fxMetadataR).pageSpread = "center" := by
  exact ⟨by decide, by decide, by decide, by decide⟩

/-- C3 counterexample: with manifest items `a` and `b`, both
`application/octet-stream`, whose fallbacks reference each other, the
fallback walk of the spine itemref `a` steps from `a` to `b` and from `b`
back to `a` without ever reaching a whitelisted MIME, so the source's
unguarded `while` loop never exits: spine processing (and hence
`PackageDocument` construction) neither succeeds nor fails with the
no-content-document error — it diverges (modelled by fuel exhaustion at
any bound; the two `chainStep` equations exhibit the loop's two-state
cycle). -/
theorem spine_fallback_cycle_no_failure :
    chainStep fxCycManifest fxCycA = ChainStep.next fxCycB
    ∧ chainStep fxCycManifest fxCycB = ChainStep.next fxCycA
    ∧ contentDocMimes.contains fxCycA.mime = false
    ∧ contentDocMimes.contains fxCycB.mime = false
    ∧ processSpine 50 fxCycManifest fxSpineCycSec = none
    ∧ (construct 50 fxPkgXmlCyc fxPkgUrl).1 = none := by
  refine ⟨by decide, by decide, by decide, by decide, by rfl, by rfl⟩

/-! ## General lemmas about `getResource` -/

theorem getResource_hit (s : PkgState) (u : String) (b : Option Url) (e : String × Nat)
    (horig : (resolveUrl u (b.getD s.baseUrl)).origin = s.packageUrl.origin)
    (hfind : s.cache.find? (fun x => x.1 == (resolveUrl u (b.getD s.baseUrl)).pathname) = some e) :
    getResource u b s = .ok (e.2, s) := by
  simp [getResource, horig, hfind]

theorem getResource_miss (s : PkgState) (u : String) (b : Option Url) (it : Item)
    (horig : (resolveUrl u (b.getD s.baseUrl)).origin = s.packageUrl.origin)
    (hfind : s.cache.find? (fun x => x.1 == (resolveUrl u (b.getD s.baseUrl)).pathname) = none)
    (hman : s.manifest.find? (fun x => (resolveUrl u (b.getD s.baseUrl)).href == (resolveUrl x.href s.baseUrl).href) = some it) :
    getResource u b s =
      .ok (s.nextId,
        { s with
          cache := ((resolveUrl u (b.getD s.baseUrl)).pathname, s.nextId) :: s.cache,
          nextId := s.nextId + 1,
          resolutions := s.resolutions ++ [(resolveUrl u (b.getD s.baseUrl)).pathname] }) := by
  simp [getResource, horig, hfind, hman]

theorem getResource_cold_ok_inv (s : PkgState) (u : String) (b : Option Url) (r : Nat)
    (s' : PkgState)
    (hcold : s.cache.find? (fun x => x.1 == (resolveUrl u (b.getD s.baseUrl)).pathname) = none)
    (h : getResource u b s = .ok (r, s')) :
    (resolveUrl u (b.getD s.baseUrl)).origin = s.packageUrl.origin
    ∧ r = s.nextId
    ∧ s' =
      { s with
        cache := ((resolveUrl u (b.getD s.baseUrl)).pathname, s.nextId) :: s.cache,
        nextId := s.nextId + 1,
        resolutions := s.resolutions ++ [(resolveUrl u (b.getD s.baseUrl)).pathname] } := by
  simp only [getResource] at h
  split at h
  next hor =>
    exact absurd h (by simp)
  next hor =>
    rw [hcold] at h
    split at h
    next e hx => exact Option.noConfusion hx
    next hx =>
      split at h
      next hman => exact absurd h (by simp)
      next it hman =>
        rw [Except.ok.injEq, Prod.mk.injEq] at h
        exact ⟨by simpa using hor, h.1.symm, h.2.symm⟩

/-- C1: two `getResource` calls whose URLs resolve to the same path inside
the package origin return the same resource value while triggering exactly
one underlying resolution (one byte read and one parse): the first call on
a cold cache installs its pending resource in the per-path cache
synchronously — before resolution completes — and records exactly one
resolution, so the second (re-entrant or later) call observes the cached
entry, returns the same resource id and leaves the state untouched. -/
theorem getResource_single_flight
    (s : PkgState) (u1 u2 : String) (b1 b2 : Option Url) (r1 : Nat) (s1 : PkgState)
    (hcold : s.cache.find? (fun x => x.1 == (resolveUrl u1 (b1.getD s.baseUrl)).pathname) = none)
    (h1 : getResource u1 b1 s = .ok (r1, s1))
    (hpath : (resolveUrl u2 (b2.getD s1.baseUrl)).pathname = (resolveUrl u1 (b1.getD s.baseUrl)).pathname)
    (horig : (resolveUrl u2 (b2.getD s1.baseUrl)).origin = s.packageUrl.origin) :
    getResource u2 b2 s1 = .ok (r1, s1)
    ∧ s1.resolutions = s.resolutions ++ [(resolveUrl u1 (b1.getD s.baseUrl)).pathname]
    ∧ s1.cache.find? (fun x => x.1 == (resolveUrl u1 (b1.getD s.baseUrl)).pathname)
        = some ((resolveUrl u1 (b1.getD s.baseUrl)).pathname, r1) := by
  obtain ⟨ho1, hr, hs⟩ := getResource_cold_ok_inv s u1 b1 r1 s1 hcold h1
  subst hr
  subst hs
  refine ⟨?_, by simp, ?_⟩
  · have hfind :
        (((resolveUrl u1 (b1.getD s.baseUrl)).pathname, s.nextId) :: s.cache).find?
          (fun x => x.1 == (resolveUrl u2 (b2.getD s.baseUrl)).pathname)
        = some ((resolveUrl u1 (b1.getD s.baseUrl)).pathname, s.nextId) := by
      rw [List.find?_cons_of_pos]
      simp only at hpath
      simp [hpath]
    refine getResource_hit _ u2 b2 ((resolveUrl u1 (b1.getD s.baseUrl)).pathname, s.nextId) ?_ ?_
    · simpa using horig
    · exact hfind
  · rw [List.find?_cons_of_pos]
    simp

/-- C9: the resource cache is keyed by the resolved pathname while a cache
miss requires an exact full-href manifest match.  (a) After a URL `u1` has
been resolved, a URL `u2` that resolves to the same scheme, host and path
— differing only in query or fragment — hits the cache and returns `u1`'s
resource with no state change.  (b) On a cold cache the very same call
fails with the not-found error whenever no manifest item's resolved href
equals `u2`'s full href (in particular when `u2` carries a query string no
manifest href has). -/
theorem getResource_query_cache_vs_manifest :
    (∀ (s : PkgState) (u1 u2 : String) (b1 : Option Url) (r1 : Nat) (s1 : PkgState),
      s.cache.find? (fun x => x.1 == (resolveUrl u1 (b1.getD s.baseUrl)).pathname) = none →
      getResource u1 b1 s = .ok (r1, s1) →
      (resolveUrl u2 s1.baseUrl).scheme = (resolveUrl u1 (b1.getD s.baseUrl)).scheme →
      (resolveUrl u2 s1.baseUrl).host = (resolveUrl u1 (b1.getD s.baseUrl)).host →
      (resolveUrl u2 s1.baseUrl).path = (resolveUrl u1 (b1.getD s.baseUrl)).path →
      getResource u2 none s1 = .ok (r1, s1))
  ∧ (∀ (s : PkgState) (u2 : String),
      (resolveUrl u2 s.baseUrl).origin = s.packageUrl.origin →
      s.cache.find? (fun x => x.1 == (resolveUrl u2 s.baseUrl).pathname) = none →
      (∀ it ∈ s.manifest, ¬ (resolveUrl u2 s.baseUrl).href = (resolveUrl it.href s.baseUrl).href) →
      getResource u2 none s = .error (.notFound u2)) := by
  constructor
  · intro s u1 u2 b1 r1 s1 hcold h1 hsch hhst hpth
    obtain ⟨ho1, hr, hs⟩ := getResource_cold_ok_inv s u1 b1 r1 s1 hcold h1
    subst hr
    subst hs
    simp only at hsch hhst hpth
    have hpn : (resolveUrl u2 s.baseUrl).pathname = (resolveUrl u1 (b1.getD s.baseUrl)).pathname := by
      unfold Url.pathname
      rw [hpth]
    have hor2 : (resolveUrl u2 s.baseUrl).origin = s.packageUrl.origin := by
      unfold Url.origin at ho1 ⊢
      rw [hsch, hhst]
      exact ho1
    have hfind :
        (((resolveUrl u1 (b1.getD s.baseUrl)).pathname, s.nextId) :: s.cache).find?
          (fun x => x.1 == (resolveUrl u2 s.baseUrl).pathname)
        = some ((resolveUrl u1 (b1.getD s.baseUrl)).pathname, s.nextId) := by
      rw [List.find?_cons_of_pos]
      simp [hpn]
    refine getResource_hit _ u2 none ((resolveUrl u1 (b1.getD s.baseUrl)).pathname, s.nextId) ?_ ?_
    · simpa using hor2
    · exact hfind
  · intro s u2 horig hcold hnone
    have hman : s.manifest.find?
        (fun x => (resolveUrl u2 s.baseUrl).href == (resolveUrl x.href s.baseUrl).href) = none := by
      rw [List.find?_eq_none]
      intro it hit
      simpa using hnone it hit
    simp [getResource, horig, hcold, hman]

theorem getResource_single_flight_witness :
    getResource "./chapter1.xhtml" none fxState1 = .ok (0, fxState1)
    ∧ fxState1.resolutions = ["/OEBPS/chapter1.xhtml"] := by
  have h := getResource_single_flight fxState0 "chapter1.xhtml" "./chapter1.xhtml"
    none none 0 fxState1 (by rfl) (by rfl) (by rfl) (by rfl)
  exact ⟨h.1, by rfl⟩

theorem getResource_query_cache_vs_manifest_witness :
    getResource "chapter1.xhtml?v=2" none fxState1 = .ok (0, fxState1)
    ∧ getResource "chapter1.xhtml?v=2" none fxState0 = .error (.notFound "chapter1.xhtml?v=2") := by
  obtain ⟨hA, hB⟩ := getResource_query_cache_vs_manifest
  refine ⟨hA fxState0 "chapter1.xhtml" "chapter1.xhtml?v=2" none 0 fxState1 (by rfl) (by rfl) (by rfl) (by rfl) (by rfl), ?_⟩
  exact hB fxState0 "chapter1.xhtml?v=2" (by rfl) (by rfl) (by decide)

/-- C8: a package document whose root element lacks a (truthy)
`unique-identifier` attribute fails construction with the missing-uid
error raised by the unique-identifier check, before any further phase
runs: the recorded trace is exactly root-check then uid-check, so the
metadata, manifest and spine processing steps never occur. -/
theorem construct_missing_uid_fail_fast (fuel : Nat) (px : PkgXml) (u : Url)
    (hroot : px.rootTag = "package")
    (huid : truthy (getAttrL px.rootAttrs "unique-identifier") = false) :
    construct fuel px u = (some (.error .missingUid), [Step.rootCheck, Step.uidCheck])
    ∧ Step.metadataProc ∉ (construct fuel px u).2
    ∧ Step.manifestProc ∉ (construct fuel px u).2
    ∧ Step.spineProc ∉ (construct fuel px u).2 := by
  have h : construct fuel px u = (some (.error .missingUid), [Step.rootCheck, Step.uidCheck]) := by
    simp [construct, hroot, huid]
  refine ⟨h, ?_, ?_, ?_⟩ <;> rw [h] <;> decide

theorem construct_missing_uid_fail_fast_witness :
    construct 10 fxPkgXmlNoUid fxPkgUrl = (some (.error .missingUid), [Step.rootCheck, Step.uidCheck]) :=
  (construct_missing_uid_fail_fast 10 fxPkgXmlNoUid fxPkgUrl (by rfl) (by rfl)).1

/-! ## Lemmas about the rendition hint override -/

theorem applyMeta_absent (dflt : String) (vals : List String) (md : XSection)
    (prop : String) (h : findMeta md prop = none) :
    applyMeta dflt vals md prop = dflt := by
  simp [applyMeta, h]

theorem applyMeta_valid (dflt : String) (vals : List String) (md : XSection)
    (prop : String) (e : XElem) (h : findMeta md prop = some e)
    (hne : jsTrim e.text ≠ "") (hin : vals.contains (jsTrim e.text)) :
    applyMeta dflt vals md prop = jsTrim e.text := by
  have hmem : jsTrim e.text ∈ vals := by simpa using hin
  simp [applyMeta, h, hne, hmem]

theorem applyMeta_invalid (dflt : String) (vals : List String) (md : XSection)
    (prop : String) (e : XElem) (h : findMeta md prop = some e)
    (hout : vals.contains (jsTrim e.text) = false) :
    applyMeta dflt vals md prop = dflt := by
  have hnmem : jsTrim e.text ∉ vals := by simpa using hout
  simp [applyMeta, h, hnmem]

/-- C7 (amended): the layout, orientation, spread and flow hints start at
their defaults (`reflowable`, `auto`, `auto`, `auto`) and are overridden
by the first metadata meta element with the matching rendition property
whose trimmed value lies in that hint's closed enumeration; a value
outside the enumeration is ignored and the default retained.  The
page-spread-per-entry hint, however, is never overridden from metadata:
it always keeps its default `center` (no meta is read for it), and
`align_x_center` likewise stays `false`. -/
theorem rendition_hint_semantics :
    (∀ md, findMeta md "rendition:layout" = none → (processRendition md).layout = "reflowable")
  ∧ (∀ md e, findMeta md "rendition:layout" = some e → jsTrim e.text ≠ "" →
      renditionLayoutValues.contains (jsTrim e.text) → (processRendition md).layout = jsTrim e.text)
  ∧ (∀ md e, findMeta md "rendition:layout" = some e →
      renditionLayoutValues.contains (jsTrim e.text) = false → (processRendition md).layout = "reflowable")
  ∧ (∀ md, findMeta md "rendition:orientation" = none → (processRendition md).orientation = "auto")
  ∧ (∀ md e, findMeta md "rendition:orientation" = some e → jsTrim e.text ≠ "" →
      renditionOrientationValues.contains (jsTrim e.text) → (processRendition md).orientation = jsTrim e.text)
  ∧ (∀ md e, findMeta md "rendition:orientation" = some e →
      renditionOrientationValues.contains (jsTrim e.text) = false → (processRendition md).orientation = "auto")
  ∧ (∀ md, findMeta md "rendition:spread" = none → (processRendition md).spread = "auto")
  ∧ (∀ md e, findMeta md "rendition:spread" = some e → jsTrim e.text ≠ "" →
      renditionSpreadValues.contains (jsTrim e.text) → (processRendition md).spread = jsTrim e.text)
  ∧ (∀ md e, findMeta md "rendition:spread" = some e →
      renditionSpreadValues.contains (jsTrim e.text) = false → (processRendition md).spread = "auto")
  ∧ (∀ md, findMeta md "rendition:flow" = none → (processRendition md).flow = "auto")
  ∧ (∀ md e, findMeta md "rendition:flow" = some e → jsTrim e.text ≠ "" →
      renditionFlowValues.contains (jsTrim e.text) → (processRendition md).flow = jsTrim e.text)
  ∧ (∀ md e, findMeta md "rendition:flow" = some e →
      renditionFlowValues.contains (jsTrim e.text) = false → (processRendition md).flow = "auto")
  ∧ (∀ md, (processRendition md).pageSpread = "center")
  ∧ (∀ md, (processRendition md).alignXCenter = false) := by
  refine ⟨?_, ?_, ?_, ?_, ?_, ?_, ?_, ?_, ?_, ?_, ?_, ?_, ?_, ?_⟩
  · intro md h
    exact applyMeta_absent _ _ _ _ h
  · intro md e h hne hin
    exact applyMeta_valid _ _ _ _ _ h hne hin
  · intro md e h hout
    exact applyMeta_invalid _ _ _ _ _ h hout
  · intro md h
    exact applyMeta_absent _ _ _ _ h
  · intro md e h hne hin
    exact applyMeta_valid _ _ _ _ _ h hne hin
  · intro md e h hout
    exact applyMeta_invalid _ _ _ _ _ h hout
  · intro md h
    exact applyMeta_absent _ _ _ _ h
  · intro md e h hne hin
    exact applyMeta_valid _ _ _ _ _ h hne hin
  · intro md e h hout
    exact applyMeta_invalid _ _ _ _ _ h hout
  · intro md h
    exact applyMeta_absent _ _ _ _ h
  · intro md e h hne hin
    exact applyMeta_valid _ _ _ _ _ h hne hin
  · intro md e h hout
    exact applyMeta_invalid _ _ _ _ _ h hout
  · intro md
    rfl
  · intro md
    rfl

theorem rendition_hint_semantics_witness :
    (processRendition fxMetadataR).layout = "pre-paginated"
    ∧ (processRendition fxMetadataR).orientation = "auto"
    ∧ (processRendition fxMetadataR).pageSpread = "center" := by
  obtain ⟨hl0, hl1, hl2, ho0, ho1, ho2, hs0, hs1, hs2, hf0, hf1, hf2, hps, hax⟩ :=
    rendition_hint_semantics
  refine ⟨?_, ?_, hps fxMetadataR⟩
  · exact hl1 fxMetadataR fxLayoutMeta (by rfl) (by decide) (by decide)
  · exact ho2 fxMetadataR fxOrientationMeta (by rfl) (by decide)

/-! ## Lemmas about the itemref loop -/

theorem itemrefStep_ok_shape (fuel : Nat) (m : Manifest) (hl : Bool) (irs : List ItemRefM)
    (c : XElem) (hl2 : Bool) (irs2 : List ItemRefM)
    (h : itemrefStep fuel m (hl, irs) c = some (.ok (hl2, irs2))) :
    ∃ it, byIdLookup m.byId ((c.getAttr "idref").getD "") = some it
      ∧ chainWalk fuel m it = some true
      ∧ irs2 = irs ++ [{ idref := (c.getAttr "idref").getD "", item := it, linear := !(c.getAttr "linear" == some "no"), props := propsOf c "properties" }]
      ∧ hl2 = (hl || !(c.getAttr "linear" == some "no")) := by
  simp only [itemrefStep] at h
  split at h
  next htr => exact absurd h (by simp)
  next htr =>
    split at h
    next hlook => exact absurd h (by simp)
    next it hlook =>
      split at h
      next hwalk => exact Option.noConfusion h
      next hwalk => exact absurd h (by simp)
      next hwalk =>
        rw [Option.some.injEq, Except.ok.injEq, Prod.mk.injEq] at h
        exact ⟨it, hlook, hwalk, h.2.symm, h.1.symm⟩

theorem foldOE_itemrefs_inv (fuel : Nat) (m : Manifest) :
    ∀ (l : List XElem) (acc : Bool × List ItemRefM) (hl2 : Bool) (irs2 : List ItemRefM),
      foldOE (itemrefStep fuel m) acc l = some (.ok (hl2, irs2)) →
      (∀ ir ∈ irs2, ir ∈ acc.2 ∨ chainWalk fuel m ir.item = some true)
      ∧ (hl2 = true → acc.1 = true ∨ ∃ c ∈ l, (!(c.getAttr "linear" == some "no")) = true) := by
  intro l
  induction l with
  | nil =>
    intro acc hl2 irs2 h
    simp only [foldOE] at h
    rw [Option.some.injEq, Except.ok.injEq] at h
    constructor
    · intro ir hmem
      exact Or.inl (by rw [h]; exact hmem)
    · intro htrue
      exact Or.inl (by rw [h]; exact htrue)
  | cons c rest ih =>
    intro acc hl2 irs2 h
    obtain ⟨hl0, irs0⟩ := acc
    simp only [foldOE] at h
    split at h
    next hstep => exact Option.noConfusion h
    next e hstep => exact absurd h (by simp)
    next b' hstep =>
      obtain ⟨hl', irs'⟩ := b'
      obtain ⟨it, hlook, hwalk, hirs, hhl⟩ := itemrefStep_ok_shape fuel m hl0 irs0 c hl' irs' hstep
      obtain ⟨ihmem, ihlin⟩ := ih (hl', irs') hl2 irs2 h
      constructor
      · intro ir hmem
        rcases ihmem ir hmem with hin | hw
        · rw [hirs] at hin
          rcases List.mem_append.mp hin with hin0 | hinNew
          · exact Or.inl hin0
          · right
            rw [List.mem_singleton.mp hinNew]
            exact hwalk
        · exact Or.inr hw
      · intro htrue
        rcases ihlin htrue with hhl' | ⟨c', hc', hlin'⟩
        · rw [hhl] at hhl'
          rw [Bool.or_eq_true] at hhl'
          rcases hhl' with h0 | hc
          · exact Or.inl h0
          · exact Or.inr ⟨c, List.mem_cons_self c rest, hc⟩
        · exact Or.inr ⟨c', List.mem_cons_of_mem c hc', hlin'⟩

theorem processSpine_ok_inv (fuel : Nat) (m : Manifest) (sp : XSection)
    (p : SpineM × Option String)
    (h : processSpine fuel m sp = some (.ok p)) :
    foldOE (itemrefStep fuel m) (false, []) (sp.children.filter (fun c => c.tag == "itemref"))
      = some (.ok (true, p.1.itemrefs)) := by
  simp only [processSpine] at h
  split at h
  next htoc => exact absurd h (by simp)
  next htoc =>
    split at h
    next hlen => exact absurd h (by simp)
    next hlen =>
      split at h
      next hfold => exact Option.noConfusion h
      next e hfold => exact absurd h (by simp)
      next hasLin irs hfold =>
        split at h
        next hnl => exact absurd h (by simp)
        next hnl =>
          rw [Option.some.injEq, Except.ok.injEq] at h
          have hlin : hasLin = true := by simpa using hnl
          rw [hlin] at hfold
          rw [← h]
          exact hfold

/-- C6: an itemref's linear flag is computed as true unless the `linear`
attribute's value is the literal string `"no"` (absent or any other value
yields true), and a spine in which every itemref carries `linear="no"`
never constructs successfully — on the concrete otherwise-valid package
with only non-linear itemrefs, construction fails with the
missing-linear-itemref error. -/
theorem spine_linear_semantics :
    (∀ (fuel : Nat) (m : Manifest) (hl : Bool) (irs : List ItemRefM) (c : XElem)
        (hl2 : Bool) (irs2 : List ItemRefM),
        itemrefStep fuel m (hl, irs) c = some (.ok (hl2, irs2)) →
        ∃ ir, irs2 = irs ++ [ir]
          ∧ (ir.linear = true ↔ ¬ c.getAttr "linear" = some "no")
          ∧ hl2 = (hl || ir.linear))
  ∧ (∀ (fuel : Nat) (m : Manifest) (sp : XSection) (p : SpineM × Option String),
        (∀ c ∈ sp.children, c.tag = "itemref" → c.getAttr "linear" = some "no") →
        processSpine fuel m sp ≠ some (.ok p))
  ∧ (construct 10 fxPkgXmlNoLinear fxPkgUrl).1 = some (.error .missingLinear) := by
  refine ⟨?_, ?_, by rfl⟩
  · intro fuel m hl irs c hl2 irs2 h
    obtain ⟨it, hlook, hwalk, hirs, hhl⟩ := itemrefStep_ok_shape fuel m hl irs c hl2 irs2 h
    refine ⟨_, hirs, ?_, hhl⟩
    simp
  · intro fuel m sp p hall h
    have hfold := processSpine_ok_inv fuel m sp p h
    obtain ⟨_, hlin⟩ := foldOE_itemrefs_inv fuel m _ (false, []) true p.1.itemrefs hfold
    rcases hlin rfl with hfalse | ⟨c, hc, hlc⟩
    · exact Bool.noConfusion hfalse
    · have htag := (List.mem_filter.mp hc).2
      have hno := hall c (List.mem_filter.mp hc).1 (by simpa using htag)
      rw [hno] at hlc
      simp at hlc

theorem spine_linear_semantics_witness :
    processSpine 10 fxValidManifest fxSpineAllNo
        ≠ some (.ok ({ id := none, pageProgression := "default", itemrefs := [] }, none))
    ∧ (construct 10 fxPkgXmlNoLinear fxPkgUrl).1 = some (.error .missingLinear) := by
  refine ⟨spine_linear_semantics.2.1 10 fxValidManifest fxSpineAllNo _ ?_, spine_linear_semantics.2.2⟩
  intro c hc htag
  fin_cases hc
  rfl

def fxIrC1 : ItemRefM := { idref := "c1", item := fxChapterItem, linear := true, props := [] }

/-- C3 (amended): a spine itemref whose fallback-chain walk terminates
without reaching a whitelisted content-document MIME makes spine
construction fail with the no-content-document error — in particular an
itemref whose idref has MIME `application/octet-stream` and no fallback —
and every successful spine construction certifies that each itemref's
walk reached the whitelist.  When the chain cycles without reaching the
whitelist, however, the unguarded walk never terminates and construction
diverges instead of failing (see the counterexample). -/
theorem spine_chain_must_reach_content_doc :
    (∀ (fuel : Nat) (m : Manifest) (sp : XSection) (p : SpineM × Option String),
        processSpine fuel m sp = some (.ok p) →
        ∀ ir ∈ p.1.itemrefs, chainWalk fuel m ir.item = some true)
  ∧ processSpine 10 fxValidManifest fxSpineBin = some (.error (.noContentDoc "bin1")) := by
  constructor
  · intro fuel m sp p h ir hmem
    have hfold := processSpine_ok_inv fuel m sp p h
    obtain ⟨hmem', _⟩ := foldOE_itemrefs_inv fuel m _ (false, []) true p.1.itemrefs hfold
    rcases hmem' ir hmem with hin | hw
    · exact absurd hin (List.not_mem_nil ir)
    · exact hw
  · rfl

theorem spine_chain_must_reach_content_doc_witness :
    chainWalk 10 fxValidManifest fxChapterItem = some true := by
  have h := spine_chain_must_reach_content_doc.1 10 fxValidManifest fxSpineSec
    ({ id := none, pageProgression := "default", itemrefs := [fxIrC1] }, none) (by rfl)
    fxIrC1 (by decide)
  exact h

/-! ## Lemmas about the manifest item loop -/

theorem manifestItemStep_ok_origin (baseUrl : Url) (pkgOrigin : String)
    (acc acc' : ManifestOut) (c : XElem)
    (h : manifestItemStep baseUrl pkgOrigin acc c = .ok acc') :
    truthy (c.getAttr "href") = true
    ∧ (resolveUrl ((c.getAttr "href").getD "") baseUrl).origin = pkgOrigin := by
  simp only [manifestItemStep] at h
  split at h
  next htr => exact absurd h (by simp)
  next htr =>
    split at h
    next => exact absurd h (by simp)
    next =>
      split at h
      next => exact absurd h (by simp)
      next =>
        split at h
        next horg => exact absurd h (by simp)
        next horg => exact ⟨by simpa using htr, by simpa using horg⟩

theorem foldE_manifest_origin (baseUrl : Url) (pkgOrigin : String) :
    ∀ (l : List XElem) (acc mo : ManifestOut),
      foldE (manifestItemStep baseUrl pkgOrigin) acc l = .ok mo →
      ∀ c ∈ l, (resolveUrl ((c.getAttr "href").getD "") baseUrl).origin = pkgOrigin := by
  intro l
  induction l with
  | nil =>
    intro acc mo h c hc
    exact absurd hc (List.not_mem_nil c)
  | cons c0 rest ih =>
    intro acc mo h c hc
    simp only [foldE] at h
    split at h
    next e hstep => exact absurd h (by simp)
    next acc' hstep =>
      rcases List.mem_cons.mp hc with hceq | hcr
      · rw [hceq]
        exact (manifestItemStep_ok_origin baseUrl pkgOrigin acc acc' c0 hstep).2
      · exact ih acc' mo h c hcr

/-- C4: origin checking is asymmetric.  A manifest that processes
successfully contains no item whose href resolves outside the package
origin (so any manifest containing such an item makes construction fail —
the concrete cross-origin manifest fails with the origin-mismatch error),
whereas an in-content reference resolving outside the base origin — a
matched attribute in a structured-markup document, or an `@import`/`url()`
target in a stylesheet — is skipped: left unresolved and unrewritten, with
no error raised and no state change. -/
theorem origin_checks_asymmetric :
    (∀ (baseUrl : Url) (pkgOrigin : String) (sec : XSection) (mo : ManifestOut),
        processManifest baseUrl pkgOrigin sec = .ok mo →
        ∀ c ∈ sec.children, c.tag = "item" →
          (resolveUrl ((c.getAttr "href").getD "") baseUrl).origin = pkgOrigin)
  ∧ processManifest fxBase fxPkgUrl.origin fxManifestXSec = .error .originMismatch
  ∧ (∀ (base : Url) (acc : String × List Nat × PkgState) (cand : String),
        (resolveUrl cand base).origin ≠ base.origin →
        cssImportStep base acc cand = .ok acc ∧ cssUrlStep base acc cand = .ok acc)
  ∧ (∀ (m : Matcher) (base : Url) (e : XElem) (s : PkgState) (a : String),
        e.getAttr m.attrName = some a → a ≠ "" →
        passFilter m.rels e "rel" = true → passFilter m.names e "name" = true →
        passFilter m.props e "property" = true → passFilter m.itemprops e "itemprop" = true →
        (resolveUrl a base).origin ≠ base.origin →
        processCandidate m base e s = .ok (e, [], s)) := by
  refine ⟨?_, by rfl, ?_, ?_⟩
  · intro baseUrl pkgOrigin sec mo h c hc htag
    refine foldE_manifest_origin baseUrl pkgOrigin _ _ mo h c ?_
    rw [List.mem_filter]
    exact ⟨hc, by simpa using htag⟩
  · intro base acc cand horg
    obtain ⟨ct, rs, st⟩ := acc
    constructor
    · simp [cssImportStep, horg]
    · simp [cssUrlStep, horg]
  · intro m base e s a ha hne hf1 hf2 hf3 hf4 horg
    have htra : truthy (some a) = true := by simp [truthy, hne]
    simp [processCandidate, ha, htra, hf1, hf2, hf3, hf4, horg]

theorem origin_checks_asymmetric_witness :
    (resolveUrl "chapter1.xhtml" fxBase).origin = fxPkgUrl.origin
    ∧ cssUrlStep fxRootBase ("", [], fxCssState) "http://other.local/x.png" = .ok ("", [], fxCssState)
    ∧ processCandidate { tag := "img", attrName := "src" } fxRootBase
        { tag := "img", attrs := [("src", "http://other.local/x.png")] } fxCssState
        = .ok ({ tag := "img", attrs := [("src", "http://other.local/x.png")] }, [], fxCssState) := by
  obtain ⟨h1, h2, h3, h4⟩ := origin_checks_asymmetric
  refine ⟨?_, ?_, ?_⟩
  · refine h1 fxBase fxPkgUrl.origin fxManifestSec
      { manifest := fxValidManifest, navItem := none, coverItem := none } (by rfl)
      { tag := "item", attrs := [("id", "c1"), ("href", "chapter1.xhtml"), ("media-type", "application/xhtml+xml")] }
      (by decide) (by rfl)
  · exact (h3 fxRootBase ("", [], fxCssState) "http://other.local/x.png" (by decide)).2
  · exact h4 { tag := "img", attrName := "src" } fxRootBase
      { tag := "img", attrs := [("src", "http://other.local/x.png")] } fxCssState
      "http://other.local/x.png" (by rfl) (by decide) (by rfl) (by rfl) (by rfl) (by rfl) (by decide)

/-- C5 (amended): `getBlob()` returns a binary representation of the
resource's content, but for structured-markup resources the serialization
happens only on the first call: the (possibly mutated) document tree is
serialized then, and the blob is cached on the instance, so mutations made
between two `getBlob()` calls are not reflected in the second call, which
returns the cached blob unchanged.  A stylesheet resource exposes its
rewritten text and a binary resource its original bytes on every call. -/
theorem resource_getBlob_semantics :
    (∀ r : HtmlRes, r.blob = none →
        (HtmlRes.getBlob r).1 = { part := .str (serializeDoc r.doc), mime := "application/xhtml+xml" })
  ∧ (∀ (r : HtmlRes) (b : Blob), r.blob = some b → HtmlRes.getBlob r = (b, r))
  ∧ (∀ (c : String) (rs : List Nat),
        CssRes.getBlob { content := c, resources := rs } = { part := .str c, mime := "text/css" })
  ∧ (∀ content : List Nat,
        BinRes.getBlob (binResOfContent content) = { part := .bytes content, mime := "" }) := by
  refine ⟨?_, ?_, ?_, ?_⟩
  · intro r h
    simp [HtmlRes.getBlob, h]
  · intro r b h
    simp [HtmlRes.getBlob, h]
  · intro c rs
    rfl
  · intro content
    rfl

theorem resource_getBlob_semantics_witness :
    (HtmlRes.getBlob fxHtml0).1 = { part := .str (serializeDoc fxDocA), mime := "application/xhtml+xml" }
    ∧ HtmlRes.getBlob fxHtml2 = ((HtmlRes.getBlob fxHtml0).1, fxHtml2) := by
  obtain ⟨h1, h2, h3, h4⟩ := resource_getBlob_semantics
  exact ⟨h1 fxHtml0 (by rfl), h2 fxHtml2 (HtmlRes.getBlob fxHtml0).1 (by rfl)⟩
